import Mathlib

/-!
Verification of the CLOUD-FLY platform core (LoadBalancer / MultiCoreEngine / sync primitives)

Shallow embedding of the fleet engine's core routines, translated from the
C++ sources:

* `src/src/core/LoadBalancer.cpp` / `src/include/core/LoadBalancer.h`
* `src/src/core/MultiCoreEngine.cpp` / `src/include/core/MultiCoreEngine.h`
* `src/src/sync/advanced_synchronization.cpp`
* `src/src/sync/lockfree_structures.cpp`

Modelling conventions:

* `double` usage values and load scores are embedded as `ℚ` (the claims
  concern only order comparisons of small decimal constants, where the
  rationals are a faithful idealisation of IEEE doubles).
* `std::unordered_map<size_t, V>` is embedded as `List (Nat × V)`, the list
  being the sequence of entries in the map's (unspecified but, for a fixed
  map object, stable) iteration order.  `operator[]` assignment is
  `minsert` (replace in place, or append for a fresh key); `find` is
  `mfind`.  The C++ standard fixes no relation between key order and
  iteration order for `unordered_map`.
* C++ `throw` of an error that the function's contract surfaces to the
  caller is embedded as `Except.error` / an error constructor.
* Single-threaded sequential semantics.  Where re-acquiring a
  non-recursive `std::mutex` already held by the running thread matters
  (LoadBalancer's `metrics_mutex_` / `task_mutex_`), the set of mutexes
  held by the thread is threaded explicitly (`Held`), and acquiring a held
  mutex yields `none` (undefined behaviour / deadlock of
  `std::mutex::lock`).  Unbounded recursion is made total with fuel;
  exhausted fuel also yields `none`, so a `none` result for every fuel
  means the call never returns.
* Calls whose only effect is on external collaborators (engine pointers,
  cache / resource managers, logging) are elided; the state kept is the
  state the claims are about.
-/

set_option autoImplicit false

namespace CloudFly

/-- Mirror of `LoadBalancer::TaskMetrics` (LoadBalancer.h:18-24): per-core usage sample. -/
structure TaskMetrics where
  cpu_usage : ℚ
  memory_usage : ℚ
  network_usage : ℚ
  queue_size : Nat
  active_tasks : Nat
deriving DecidableEq

/-- Mirror of `LoadBalancer::CoreMetrics` (LoadBalancer.h:26-30): usage sample plus a
timestamp (modelled as `Nat`, never inspected by the routines below) and the
health flag. -/
structure CoreMetrics where
  metrics : TaskMetrics
  last_update : Nat
  is_healthy : Bool
deriving DecidableEq

/-- Task kinds dispatched by `LoadBalancer::submit_task` (LoadBalancer.cpp:88-96). -/
inductive TaskType where
  | COMPUTE
  | BLOCKCHAIN
  | NETWORK
  | STORAGE
deriving DecidableEq

/-- Task priorities as used by the test sources (`TaskPriority::HIGH` etc.). -/
inductive TaskPriority where
  | LOW
  | NORMAL
  | HIGH
deriving DecidableEq

/-- The `TaskStatus` values stored in `task_status_`
(LoadBalancer.cpp:84,121,127). -/
inductive TaskStatus where
  | PENDING
  | RUNNING
  | COMPLETED
  | CANCELLED
  | FAILED
  | UNKNOWN
deriving DecidableEq

/-- The `Task` record as used by `LoadBalancer.cpp` (`task.type`,
`task.assigned_core`) and the spec's data model (kind, priority, opaque
payload elided). The struct itself has no definition under `src/`; the fields
are the ones the translated routines read and write. -/
structure Task where
  type : TaskType
  priority : TaskPriority
  assigned_core : Nat
deriving DecidableEq

/-- Embedding of `unordered_map::find`: first entry with the given key, if any. -/
def mfind {β : Type} : List (Nat × β) → Nat → Option β
  | [], _ => none
  | (k, v) :: rest, key => if k = key then some v else mfind rest key

/-- Embedding of `unordered_map::operator[] = v`: replace the entry in place when the key
is present, append a fresh entry otherwise. -/
def minsert {β : Type} : List (Nat × β) → Nat → β → List (Nat × β)
  | [], key, v => [(key, v)]
  | (k, w) :: rest, key, v =>
      if k = key then (k, v) :: rest else (k, w) :: minsert rest key v

/-- The mutable state of one `LoadBalancer` object: the three task tables
behind `task_mutex_` and the metrics table behind `metrics_mutex_`
(LoadBalancer.h:77-85). -/
structure LBState where
  tasks : List (Nat × Task)
  task_status : List (Nat × TaskStatus)
  task_metrics : List (Nat × TaskMetrics)
  core_metrics : List (Nat × CoreMetrics)
deriving DecidableEq

/-- The composite load score of LoadBalancer.cpp:146-148:
`cpu_usage * 0.4 + memory_usage * 0.3 + network_usage * 0.3`. -/
def loadScore (m : TaskMetrics) : ℚ :=
  m.cpu_usage * (4/10) + m.memory_usage * (3/10) + m.network_usage * (3/10)

/-- One iteration of the selection loop of
`LoadBalancer::find_least_loaded_core` (LoadBalancer.cpp:141-154): skip
unhealthy cores; otherwise replace the running minimum exactly when the new
load is strictly smaller (`load < min_load`), so among equal scores the entry
seen first is kept.  The accumulator `none` plays the role of
`min_load = DBL_MAX`, `least_loaded_core = size_t(-1)`. -/
def fllc_step (acc : Option (Nat × ℚ)) (p : Nat × CoreMetrics) : Option (Nat × ℚ) :=
  if p.2.is_healthy then
    match acc with
    | none => some (p.1, loadScore p.2.metrics)
    | some (c, m) =>
        if loadScore p.2.metrics < m then some (p.1, loadScore p.2.metrics)
        else some (c, m)
  else acc

/-- Embedding of `LoadBalancer::find_least_loaded_core` (LoadBalancer.cpp:135-157),
as a function of the metrics table in its iteration order.  `none` is the
`size_t(-1)` sentinel. -/
def find_least_loaded_core (core_metrics : List (Nat × CoreMetrics)) : Option Nat :=
  (core_metrics.foldl fllc_step none).map Prod.fst

/-- The selection routine as claim C1 words it: minimum composite score over
the healthy cores, ties broken by lowest `core_id`.  This definition follows
the claim's words, not the source; it exists to be compared with
`find_least_loaded_core`. -/
def find_least_loaded_core_claim (core_metrics : List (Nat × CoreMetrics)) : Option Nat :=
  (core_metrics.foldl
    (fun acc p =>
      if p.2.is_healthy then
        match acc with
        | none => some (p.1, loadScore p.2.metrics)
        | some (c, m) =>
            if loadScore p.2.metrics < m ∨ (loadScore p.2.metrics = m ∧ p.1 < c) then
              some (p.1, loadScore p.2.metrics)
            else some (c, m)
      else acc)
    none).map Prod.fst

/-- The error `LoadBalancer::submit_task` surfaces to its caller when no
healthy core exists: `throw std::runtime_error("No available cores for task
submission")` (LoadBalancer.cpp:76). -/
inductive SubmitError where
  | NoAvailableCore
deriving DecidableEq

/-- Embedding of `LoadBalancer::submit_task` (LoadBalancer.cpp:70-99): under `task_mutex_`
(its inner `find_least_loaded_core` takes the distinct `metrics_mutex_`, so no
self-deadlock on this path), pick a target core; with the `size_t(-1)`
sentinel, throw `NoAvailableCore`; otherwise the new id is
`tasks_.size() + 1`, the task is stored, its status set to `PENDING`, its
metrics zero-initialised, and the task is handed to the engine matching
`task.type` (an external collaborator, elided).  There is no retry. -/
def submit_task (st : LBState) (task : Task) : Except SubmitError (Nat × LBState) :=
  match find_least_loaded_core st.core_metrics with
  | none => Except.error SubmitError.NoAvailableCore
  | some _target =>
      let task_id := st.tasks.length + 1
      Except.ok (task_id,
        { st with
          tasks := minsert st.tasks task_id task
          task_status := minsert st.task_status task_id TaskStatus.PENDING
          task_metrics := minsert st.task_metrics task_id ⟨0, 0, 0, 0, 0⟩ })

/-- Embedding of `LoadBalancer::get_task_status` (LoadBalancer.cpp:124-128): a `const`
lookup in `task_status_` returning `UNKNOWN` for an absent id.  The state is
returned unchanged to record that the method (unlike `operator[]`) creates no
entry. -/
def get_task_status (st : LBState) (task_id : Nat) : TaskStatus × LBState :=
  match mfind st.task_status task_id with
  | some s => (s, st)
  | none => (TaskStatus.UNKNOWN, st)

/-- The set of LoadBalancer mutexes held by the running thread.  Both are
plain non-recursive `std::mutex`; `std::mutex::lock` on a mutex the thread
already holds is undefined behaviour (in practice a deadlock), which the
lock-aware functions below model by returning `none`. -/
structure Held where
  metrics : Bool
  task : Bool
deriving DecidableEq

/-- The body of the per-task loop of `LoadBalancer::redistribute_tasks`
(LoadBalancer.cpp:321-337): call `find_least_loaded_core()` — which takes
`metrics_mutex_` (LoadBalancer.cpp:136), deadlocking if the thread already
holds it — then, unless the sentinel came back, point the task's
`assigned_core` at the target and resubmit it to the engine matching its type
(external, elided; note the code never removes the task from the old
engine-side queue). -/
def redistribute_step (held : Held) (acc : Option LBState) (task_id : Nat) : Option LBState :=
  match acc with
  | none => none
  | some s =>
      if held.metrics then none
      else
        match find_least_loaded_core s.core_metrics with
        | some target =>
            match mfind s.tasks task_id with
            | some t => some { s with tasks := minsert s.tasks task_id { t with assigned_core := target } }
            | none => some s
        | none => some s

/-- Embedding of `LoadBalancer::redistribute_tasks` (LoadBalancer.cpp:309-339): under
`task_mutex_`, collect the ids of the tasks whose `assigned_core` is the
failed core (in table iteration order), then run the per-task loop. -/
def redistribute_tasks (held : Held) (st : LBState) (failed_core_id : Nat) : Option LBState :=
  if held.task then none
  else
    let held1 : Held := { held with task := true }
    let failed_tasks := (st.tasks.filter (fun p => p.2.assigned_core == failed_core_id)).map Prod.fst
    failed_tasks.foldl (redistribute_step held1) (some st)

/-- Whether `LoadBalancer::rebalance_load` (LoadBalancer.cpp:211-213) counts a
core as overloaded: any of the three usages strictly above `0.8`.  The health
flag is not consulted. -/
def isOverloaded (m : CoreMetrics) : Bool :=
  decide ((8 : ℚ)/10 < m.metrics.cpu_usage) ||
  decide ((8 : ℚ)/10 < m.metrics.memory_usage) ||
  decide ((8 : ℚ)/10 < m.metrics.network_usage)

/-- Embedding of `LoadBalancer::rebalance_load` (LoadBalancer.cpp:205-222): take
`metrics_mutex_` for the whole body, collect the overloaded cores, then call
`redistribute_tasks` on each — still holding `metrics_mutex_`, so any inner
`find_least_loaded_core` call re-locks a held mutex. -/
def rebalance_load (held : Held) (st : LBState) : Option LBState :=
  if held.metrics then none
  else
    let held1 : Held := { held with metrics := true }
    let overloaded_cores := (st.core_metrics.filter (fun p => isOverloaded p.2)).map Prod.fst
    overloaded_cores.foldl
      (fun acc core_id =>
        match acc with
        | none => none
        | some s => redistribute_tasks held1 s core_id)
      (some st)

mutual

/-- Embedding of `LoadBalancer::handle_core_failure` (LoadBalancer.cpp:298-307): call
`mark_core_unhealthy`, then `redistribute_tasks`, then `cleanup_core` (pure
engine calls, elided).  Fuel makes the mutual recursion with
`mark_core_unhealthy` total; `none` means the call did not return (fuel ran
out, or a held mutex was re-locked). -/
def handle_core_failure : Nat → Held → LBState → Nat → Option LBState
  | 0, _, _, _ => none
  | fuel + 1, held, st, core_id =>
      match mark_core_unhealthy fuel held st core_id with
      | none => none
      | some st1 =>
          match redistribute_tasks held st1 core_id with
          | none => none
          | some st2 => some st2

/-- Embedding of `LoadBalancer::mark_core_unhealthy` (LoadBalancer.cpp:170-177): take
`metrics_mutex_`; if the core is in the table, clear its health flag and —
still inside the `lock_guard` — call `handle_core_failure` on it. -/
def mark_core_unhealthy : Nat → Held → LBState → Nat → Option LBState
  | 0, _, _, _ => none
  | fuel + 1, held, st, core_id =>
      if held.metrics then none
      else
        match mfind st.core_metrics core_id with
        | none => some st
        | some cm =>
            let st1 : LBState :=
              { st with core_metrics := minsert st.core_metrics core_id { cm with is_healthy := false } }
            handle_core_failure fuel { held with metrics := true } st1 core_id

end

/-! HierarchicalLock section: (src/src/sync/advanced_synchronization.cpp:10-44) -/

/-- State of one `HierarchicalLock` as seen by the acting thread: the shared
atomic lock word `lock_` (0 = free) and the static `thread_local`
`current_hierarchy` of that thread (0 = no lock held). -/
structure HLState where
  lock_word : Nat
  current_hierarchy : Nat
deriving DecidableEq

/-- Outcome of one call to `HierarchicalLock::lock`. `invalidHierarchy` is the
`throw std::runtime_error("Invalid lock hierarchy")` on line 15;
`spinning` stands for the CAS loop still retrying because another thread holds
the word — the acting thread has written nothing yet. -/
inductive LockOutcome where
  | invalidHierarchy
  | acquired
  | spinning
deriving DecidableEq

/-- Embedding of `HierarchicalLock::lock` (advanced_synchronization.cpp:13-35): the
hierarchy check `hierarchy <= current_hierarchy` throws before the CAS loop
and before either the lock word or the thread-local level is written;
otherwise the spin-CAS acquires a free word and only then sets
`current_hierarchy`. -/
def HierarchicalLock.lock (st : HLState) (hierarchy : Nat) : LockOutcome × HLState :=
  if hierarchy ≤ st.current_hierarchy then (LockOutcome.invalidHierarchy, st)
  else if st.lock_word = 0 then
    (LockOutcome.acquired, { lock_word := hierarchy, current_hierarchy := hierarchy })
  else (LockOutcome.spinning, st)

/-! Lock-free queues.

Both queue classes are Michael–Scott lists with a dummy head node.  A queue
is embedded as the `List` of items in the real nodes after the dummy, front
first.  The uncontended (single-threaded) run of the CAS loops is embedded:
an empty chain is exactly the `head == tail && head->next == nullptr` branch,
and on a non-empty chain the first `compare_exchange_weak` succeeds and the
head advances past the dummy to the first real node. -/

namespace concurrency

/-- Embedding of `core::concurrency::LockFreeQueue<T>::dequeue`
(advanced_synchronization.cpp:104-132): `false` (here `none`) on the empty
queue, otherwise the first real node's data and the advanced chain. -/
def LockFreeQueue.dequeue {α : Type} (q : List α) : Option (α × List α) :=
  match q with
  | [] => none
  | x :: rest => some (x, rest)

end concurrency

namespace lockfree

/-- The error thrown by `core::lockfree::LockFreeQueue<T>::dequeue`:
`throw std::runtime_error("Queue is empty")` (lockfree_structures.cpp:48). -/
inductive QueueError where
  | queueEmpty
deriving DecidableEq

/-- Embedding of `core::lockfree::LockFreeQueue<T>::dequeue` (lockfree_structures.cpp:38-66):
unlike the `concurrency` variant it has no empty result — the empty-queue
branch throws `QueueError.queueEmpty`. -/
def LockFreeQueue.dequeue {α : Type} (q : List α) : Except QueueError (α × List α) :=
  match q with
  | [] => Except.error QueueError.queueEmpty
  | x :: rest => Except.ok (x, rest)

end lockfree

/-! MultiCoreEngine section: (src/src/core/MultiCoreEngine.cpp) -/

/-- Items of the engine-side `task_queue`.  The engine `Task` struct has no
definition under `src/`; only its identity matters to the claims, so it is a
wrapped id. -/
structure MTask where
  id : Nat
deriving DecidableEq

/-- One entry of `MultiCoreEngine::cores_` as the redistribution and worker
routines see it: the `running` flag and the task queue contents. -/
structure MCECore where
  running : Bool
  queue : List MTask
deriving DecidableEq

/-- The concatenation of all task queues of the fleet — what the C2 invariant
counts. -/
def totalQueue : List MCECore → List MTask
  | [] => []
  | c :: cs => c.queue ++ totalQueue cs

namespace MCE

/-- The collection half of the first loop of
`MultiCoreEngine::redistribute_tasks` (MultiCoreEngine.cpp:237-241): for each
core in index order, if it is not running, `drain()` its queue and append the
tasks to `failed_tasks`. -/
def collect_failed : List MCECore → List MTask
  | [] => []
  | c :: cs => (if c.running then [] else c.queue) ++ collect_failed cs

/-- The drain half of the same loop: a drained (non-running) core is left
with an empty queue. -/
def clear_failed : List MCECore → List MCECore
  | [] => []
  | c :: cs => (if c.running then c else { c with queue := [] }) :: clear_failed cs

/-- One iteration of `MultiCoreEngine::find_least_loaded_core`
(MultiCoreEngine.cpp:257-265): skip cores that are not running, otherwise
keep the strictly smaller `task_queue.size()` (first wins on ties); the input
pair is (index, core) as produced by the `for (size_t i ...)` loop. -/
def fllc_step (acc : Option (Nat × Nat)) (p : Nat × MCECore) : Option (Nat × Nat) :=
  if p.2.running then
    match acc with
    | none => some (p.1, p.2.queue.length)
    | some (t, m) => if p.2.queue.length < m then some (p.1, p.2.queue.length) else some (t, m)
  else acc

/-- Embedding of `MultiCoreEngine::find_least_loaded_core` (MultiCoreEngine.cpp:253-268);
`none` is the `size_t(-1)` sentinel. -/
def find_least_loaded_core (cores : List MCECore) : Option Nat :=
  ((cores.enum).foldl fllc_step none).map Prod.fst

/-- Declaration-only routine: `MultiCoreEngine::submit_task(core_id, task)` is declared in
MultiCoreEngine.h:59 but has no body under `src/`.  Modelled from the spec:
the data-flow section says a submitted task is pushed onto the chosen core's
`ConcurrentTaskQueue`, so the task is enqueued at the back of
`cores_[core_id]`'s queue; an out-of-range index leaves the fleet unchanged. -/
def submit_task : List MCECore → Nat → MTask → List MCECore
  | [], _, _ => []
  | c :: cs, 0, t => { c with queue := c.queue ++ [t] } :: cs
  | c :: cs, n + 1, t => c :: submit_task cs n t

/-- The body of the second loop of `MultiCoreEngine::redistribute_tasks`
(MultiCoreEngine.cpp:245-250): re-run `find_least_loaded_core` on the current
fleet and, unless the sentinel came back, submit the task there; with the
sentinel the task is simply not resubmitted. -/
def redistribute_push (cs : List MCECore) (t : MTask) : List MCECore :=
  match find_least_loaded_core cs with
  | some i => submit_task cs i t
  | none => cs

/-- Embedding of `MultiCoreEngine::redistribute_tasks` (MultiCoreEngine.cpp:233-251):
drain every non-running core's queue into `failed_tasks`, then push each
collected task at the current least-loaded running core. -/
def redistribute_tasks (cores : List MCECore) : List MCECore :=
  (collect_failed cores).foldl redistribute_push (clear_failed cores)

end MCE

/-! The worker loop section: (MultiCoreEngine.cpp:112-142) -/

/-- Whether `task->execute()` returns normally or throws
(`TaskExecutionError` in the spec's taxonomy). -/
inductive ExecOutcome where
  | success
  | failure
deriving DecidableEq

/-- A queued task as the worker loop sees it: its id and what its execution
does. -/
structure WTask where
  id : Nat
  outcome : ExecOutcome
deriving DecidableEq

/-- Declaration-only routine: `MultiCoreEngine::handle_core_exception` is declared in
MultiCoreEngine.h:126 but has no body under `src/`.  Modelled from the spec:
a caught execution error "marks itself Failed and reports but does not stop
the worker or affect sibling tasks", so the handler appends the failing id to
the failure report and touches nothing else. -/
def handle_core_exception (failed : List Nat) (id : Nat) : List Nat :=
  failed ++ [id]

/-- The inner drain loop of `MultiCoreEngine::worker_thread`
(MultiCoreEngine.cpp:130-137): while the queue is non-empty, pop the front
task and execute it inside `try`/`catch`; a throw is handed to
`handle_core_exception` and the loop continues with the next task.  Returns
the ids in execution order and the final failure report. -/
def worker_drain : List WTask → List Nat → List Nat × List Nat
  | [], failed => ([], failed)
  | t :: rest, failed =>
      let failed1 :=
        match t.outcome with
        | ExecOutcome.success => failed
        | ExecOutcome.failure => handle_core_exception failed t.id
      let r := worker_drain rest failed1
      (t.id :: r.1, r.2)

/-! Concrete states used by the witnesses, counterexamples and failing-input
evaluations below. -/

/-- A healthy core with the given cpu usage and all other usages zero. -/
def healthyCpu (c : ℚ) : CoreMetrics := ⟨⟨c, 0, 0, 0, 0⟩, 0, true⟩

/-- A healthy, fully idle core. -/
def healthyZero : CoreMetrics := healthyCpu 0

/-- An unhealthy, fully idle core. -/
def unhealthyZero : CoreMetrics := ⟨⟨0, 0, 0, 0, 0⟩, 0, false⟩

/-- Metrics-table snapshot for the C1 counterexample: two healthy cores with
equal (zero) load whose iteration order lists the higher id first — a legal
`unordered_map` iteration order, which the standard leaves unspecified. -/
def snapC1 : List (Nat × CoreMetrics) := [(5, healthyZero), (3, healthyZero)]

/-- Metrics-table snapshot for the C1 witness: core 4 busy, core 7 idle. -/
def snapC1w : List (Nat × CoreMetrics) := [(4, healthyCpu 1), (7, healthyZero)]

/-- A compute task assigned to the given core. -/
def taskOn (c : Nat) : Task := ⟨TaskType.COMPUTE, TaskPriority.NORMAL, c⟩

/-- Scenario A of the spec (claim C5): healthy cores 0/1/2 with cpu usage
0.9 / 0.2 / 0.3, all other usages zero, and one task assigned to the
overloaded core 0. -/
def stA : LBState :=
  { tasks := [(1, taskOn 0)]
    task_status := [(1, TaskStatus.PENDING)]
    task_metrics := []
    core_metrics := [(0, healthyCpu (9/10)), (1, healthyCpu (2/10)), (2, healthyCpu (3/10))] }

/-- Scenario B state (claim C4): core 3 is in the metrics table and marked
unhealthy while holding five queued tasks; core 1 is healthy. -/
def stB : LBState :=
  { tasks := [(1, taskOn 3), (2, taskOn 3), (3, taskOn 3), (4, taskOn 3), (5, taskOn 3)]
    task_status := [(1, TaskStatus.PENDING), (2, TaskStatus.PENDING), (3, TaskStatus.PENDING),
      (4, TaskStatus.PENDING), (5, TaskStatus.PENDING)]
    task_metrics := []
    core_metrics := [(3, unhealthyZero), (1, healthyZero)] }

/-- Failing input for claim C3: core 2 is in the metrics table with two queued
tasks; core 0 is healthy and idle. -/
def stC3 : LBState :=
  { tasks := [(1, taskOn 2), (2, taskOn 2)]
    task_status := [(1, TaskStatus.PENDING), (2, TaskStatus.PENDING)]
    task_metrics := []
    core_metrics := [(2, unhealthyZero), (0, healthyZero)] }

/-- The empty fleet: no tasks, no cores registered. -/
def stEmptyFleet : LBState := ⟨[], [], [], []⟩

/-- A fleet whose two registered cores are both unhealthy. -/
def stNoHealthy : LBState := ⟨[], [], [], [(0, unhealthyZero), (2, unhealthyZero)]⟩

/-- A fleet with one healthy idle core and no tasks. -/
def stOneHealthy : LBState := ⟨[], [], [], [(0, healthyZero)]⟩

/-- State for the C10 witness: task 1 recorded `PENDING`; id 99 never
recorded. -/
def stC10 : LBState := ⟨[(1, taskOn 0)], [(1, TaskStatus.PENDING)], [], [(0, healthyZero)]⟩

/-- Fleet for the C2 counterexample: a single non-running core holding one
task, no running core left. -/
def fleetC2cex : List MCECore := [⟨false, [⟨0⟩]⟩]

/-- Fleet for the C2 witness: a running idle core and a non-running core
holding one task. -/
def fleetC2w : List MCECore := [⟨true, []⟩, ⟨false, [⟨7⟩]⟩]

/-! Properties of the selection loop of `LoadBalancer::find_least_loaded_core`. -/

theorem fllc_step_eq_none (acc : Option (Nat × ℚ)) (p : Nat × CoreMetrics) :
    fllc_step acc p = none ↔ acc = none ∧ p.2.is_healthy = false := by
  rcases p with ⟨i, cm⟩
  rcases hcm : cm.is_healthy
  · simp [fllc_step, hcm]
  · rcases acc with _ | ⟨c, m⟩ <;> simp [fllc_step, hcm]
    split <;> simp

theorem fllc_step_some_cases (acc : Option (Nat × ℚ)) (p : Nat × CoreMetrics)
    (c : Nat) (q : ℚ) (h : fllc_step acc p = some (c, q)) :
    acc = some (c, q) ∨ (p.2.is_healthy = true ∧ c = p.1 ∧ q = loadScore p.2.metrics) := by
  rcases p with ⟨i, cm⟩
  rcases hcm : cm.is_healthy
  · simp [fllc_step, hcm] at h
    exact Or.inl h
  · rcases acc with _ | ⟨c0, m0⟩
    · simp [fllc_step, hcm] at h
      exact Or.inr ⟨rfl, h.1.symm, h.2.symm⟩
    · by_cases hlt : loadScore cm.metrics < m0
      · simp [fllc_step, hcm, hlt] at h
        exact Or.inr ⟨rfl, h.1.symm, h.2.symm⟩
      · simp [fllc_step, hcm, hlt] at h
        exact Or.inl (by simp [h.1, h.2])

theorem fllc_step_le_acc (acc : Option (Nat × ℚ)) (p : Nat × CoreMetrics)
    (c : Nat) (q : ℚ) (c0 : Nat) (q0 : ℚ)
    (h : fllc_step acc p = some (c, q)) (hacc : acc = some (c0, q0)) : q ≤ q0 := by
  subst hacc
  rcases p with ⟨i, cm⟩
  rcases hcm : cm.is_healthy
  · simp [fllc_step, hcm] at h
    exact le_of_eq h.2.symm
  · by_cases hlt : loadScore cm.metrics < q0
    · simp [fllc_step, hcm, hlt] at h
      rw [← h.2]
      exact le_of_lt hlt
    · simp [fllc_step, hcm, hlt] at h
      exact le_of_eq h.2.symm

theorem fllc_step_le_cur (acc : Option (Nat × ℚ)) (p : Nat × CoreMetrics)
    (c : Nat) (q : ℚ) (h : fllc_step acc p = some (c, q)) (hp : p.2.is_healthy = true) :
    q ≤ loadScore p.2.metrics := by
  rcases p with ⟨i, cm⟩
  have hcm : cm.is_healthy = true := hp
  rcases acc with _ | ⟨c0, m0⟩
  · simp [fllc_step, hcm] at h
    exact le_of_eq h.2.symm
  · by_cases hlt : loadScore cm.metrics < m0
    · simp [fllc_step, hcm, hlt] at h
      exact le_of_eq h.2.symm
    · simp [fllc_step, hcm, hlt] at h
      rw [← h.2]
      exact le_of_not_lt hlt

theorem fllc_foldl_eq_none (l : List (Nat × CoreMetrics)) :
    ∀ acc, l.foldl fllc_step acc = none ↔ acc = none ∧ ∀ p ∈ l, p.2.is_healthy = false := by
  induction l with
  | nil => intro acc; simp
  | cons p l ih =>
    intro acc
    rw [List.foldl_cons, ih (fllc_step acc p), fllc_step_eq_none]
    constructor
    · rintro ⟨⟨h1, h2⟩, h3⟩
      refine ⟨h1, ?_⟩
      intro q hq
      rcases List.mem_cons.mp hq with hq | hq
      · rw [hq]; exact h2
      · exact h3 q hq
    · rintro ⟨h1, h2⟩
      exact ⟨⟨h1, h2 p (List.mem_cons_self p l)⟩, fun q hq => h2 q (List.mem_cons_of_mem p hq)⟩

theorem fllc_foldl_min (l : List (Nat × CoreMetrics)) :
    ∀ (acc : Option (Nat × ℚ)) (c : Nat) (q : ℚ), l.foldl fllc_step acc = some (c, q) →
      (acc = some (c, q) ∨ ∃ cm, (c, cm) ∈ l ∧ cm.is_healthy = true ∧ q = loadScore cm.metrics)
      ∧ (∀ p ∈ l, p.2.is_healthy = true → q ≤ loadScore p.2.metrics)
      ∧ (∀ c0 q0, acc = some (c0, q0) → q ≤ q0) := by
  induction l with
  | nil =>
    intro acc c q h
    simp only [List.foldl_nil] at h
    refine ⟨Or.inl h, by simp, ?_⟩
    intro c0 q0 h0
    rw [h0] at h
    injection h with h'
    injection h' with h1 h2
    exact le_of_eq h2.symm
  | cons p l ih =>
    intro acc c q h
    rw [List.foldl_cons] at h
    obtain ⟨H1, H2, H3⟩ := ih (fllc_step acc p) c q h
    have Hstep : ∀ c1 q1, fllc_step acc p = some (c1, q1) →
        acc = some (c1, q1) ∨ (p.2.is_healthy = true ∧ c1 = p.1 ∧ q1 = loadScore p.2.metrics) :=
      fun c1 q1 h1 => fllc_step_some_cases acc p c1 q1 h1
    refine ⟨?_, ?_, ?_⟩
    · rcases H1 with H1 | ⟨cm, hmem, hh, hq⟩
      · rcases Hstep c q H1 with h1 | ⟨hh, hc, hq⟩
        · exact Or.inl h1
        · exact Or.inr ⟨p.2, by rw [hc]; exact List.mem_cons_self p l, hh, hq⟩
      · exact Or.inr ⟨cm, List.mem_cons_of_mem p hmem, hh, hq⟩
    · intro r hr hhr
      rcases List.mem_cons.mp hr with hr | hr
      · subst hr
        rcases hstep : fllc_step acc r with _ | ⟨c1, q1⟩
        · rw [fllc_step_eq_none] at hstep
          rw [hstep.2] at hhr
          cases hhr
        · exact le_trans (H3 c1 q1 hstep) (fllc_step_le_cur acc r c1 q1 hstep hhr)
      · exact H2 r hr hhr
    · intro c0 q0 hacc
      rcases hstep : fllc_step acc p with _ | ⟨c1, q1⟩
      · rw [fllc_step_eq_none] at hstep
        rw [hstep.1] at hacc
        cases hacc
      · exact le_trans (H3 c1 q1 hstep) (fllc_step_le_acc acc p c1 q1 c0 q0 hstep hacc)

theorem find_least_loaded_core_eq_none (cm : List (Nat × CoreMetrics)) :
    find_least_loaded_core cm = none ↔ ∀ p ∈ cm, p.2.is_healthy = false := by
  unfold find_least_loaded_core
  rw [Option.map_eq_none']
  rw [fllc_foldl_eq_none cm none]
  simp

/-- Claim C1, amended: on every metrics-table snapshot,
`find_least_loaded_core` considers exactly the cores with
`is_healthy == true` and returns a core whose composite score
`0.4*cpu + 0.3*mem + 0.3*net` is minimal among them; ties are broken by the
snapshot's iteration order (the entry seen first wins), not by lowest
core_id.  As a function of the snapshot the routine is deterministic, so two
calls on the identical snapshot return the same core_id. -/
theorem find_least_loaded_core_min (cm : List (Nat × CoreMetrics)) (c : Nat)
    (h : find_least_loaded_core cm = some c) :
    ∃ m, (c, m) ∈ cm ∧ m.is_healthy = true ∧
      ∀ p ∈ cm, p.2.is_healthy = true → loadScore m.metrics ≤ loadScore p.2.metrics := by
  unfold find_least_loaded_core at h
  rcases hmap : cm.foldl fllc_step none with _ | ⟨c1, q⟩
  · rw [hmap] at h
    cases h
  · rw [hmap] at h
    simp only [Option.map_some'] at h
    obtain ⟨H1, H2, _⟩ := fllc_foldl_min cm none c1 q hmap
    rcases H1 with H1 | ⟨m, hmem, hh, hq⟩
    · cases H1
    · injection h with hc
      subst hc
      refine ⟨m, hmem, hh, ?_⟩
      intro p hp hhp
      rw [← hq]
      exact H2 p hp hhp

/-- Witness for `find_least_loaded_core_min` at the snapshot `snapC1w`,
where the routine picks the idle core 7 over the busy core 4. -/
theorem find_least_loaded_core_min_witness :
    ∃ m, (7, m) ∈ snapC1w ∧ m.is_healthy = true ∧
      ∀ p ∈ snapC1w, p.2.is_healthy = true → loadScore m.metrics ≤ loadScore p.2.metrics :=
  find_least_loaded_core_min snapC1w 7 (by
    norm_num [snapC1w, find_least_loaded_core, fllc_step, loadScore, healthyCpu, healthyZero])

/-- Counterexample to claim C1 as stated: on the snapshot `snapC1` both cores
3 and 5 are healthy with equal composite score 0, yet the routine returns
core 5 — the entry its `unordered_map` iteration happens to visit first —
while the claim's lowest-core_id tie-break (formalised by
`find_least_loaded_core_claim`) demands core 3. -/
theorem find_least_loaded_core_tiebreak_counterexample :
    find_least_loaded_core snapC1 = some 5 ∧ find_least_loaded_core_claim snapC1 = some 3 := by
  constructor <;>
    norm_num [snapC1, find_least_loaded_core, find_least_loaded_core_claim, fllc_step,
      loadScore, healthyZero, healthyCpu]

/-- Claim C6: `submit_task` returns the `NoAvailableCore` error (the thrown
`runtime_error`, surfaced synchronously) exactly when no registered core is
healthy — in particular on the empty fleet — and otherwise returns the fresh
task id `tasks_.size() + 1`.  There is no internal retry and no other failure
mode on this path. -/
theorem submit_task_no_available_core (st : LBState) (task : Task) :
    (submit_task st task = Except.error SubmitError.NoAvailableCore ↔
      ∀ p ∈ st.core_metrics, p.2.is_healthy = false)
    ∧ ((∃ p ∈ st.core_metrics, p.2.is_healthy = true) →
      ∃ st', submit_task st task = Except.ok (st.tasks.length + 1, st')) := by
  rcases hfind : find_least_loaded_core st.core_metrics with _ | t
  · have hall := (find_least_loaded_core_eq_none st.core_metrics).mp hfind
    have herr : submit_task st task = Except.error SubmitError.NoAvailableCore := by
      unfold submit_task
      rw [hfind]
    refine ⟨⟨fun _ => hall, fun _ => herr⟩, ?_⟩
    rintro ⟨p, hp, hh⟩
    rw [hall p hp] at hh
    cases hh
  · have hok : submit_task st task = Except.ok (st.tasks.length + 1,
        { st with
          tasks := minsert st.tasks (st.tasks.length + 1) task
          task_status := minsert st.task_status (st.tasks.length + 1) TaskStatus.PENDING
          task_metrics := minsert st.task_metrics (st.tasks.length + 1) ⟨0, 0, 0, 0, 0⟩ }) := by
      unfold submit_task
      rw [hfind]
    refine ⟨⟨fun h => ?_, fun hall => ?_⟩, fun _ => ⟨_, hok⟩⟩
    · rw [hok] at h
      cases h
    · rw [(find_least_loaded_core_eq_none _).mpr hall] at hfind
      cases hfind

/-- Witness for `submit_task_no_available_core`: a fleet with only unhealthy
cores yields the error; a fleet with one healthy core yields task id 1. -/
theorem submit_task_no_available_core_witness :
    submit_task stNoHealthy (taskOn 0) = Except.error SubmitError.NoAvailableCore ∧
    ∃ st', submit_task stOneHealthy (taskOn 0) = Except.ok (1, st') :=
  ⟨(submit_task_no_available_core stNoHealthy (taskOn 0)).1.mpr
      (by simp [stNoHealthy, unhealthyZero]),
   (submit_task_no_available_core stOneHealthy (taskOn 0)).2
      ⟨(0, healthyZero), List.Mem.head _, rfl⟩⟩

/-- Claim C10: `get_task_status` is total; for a task id never recorded in the
status table it returns `UNKNOWN` and leaves every table unchanged (the
`const` method performs a `find`, never an `operator[]` insertion). -/
theorem get_task_status_unknown (st : LBState) (task_id : Nat)
    (h : mfind st.task_status task_id = none) :
    get_task_status st task_id = (TaskStatus.UNKNOWN, st) := by
  unfold get_task_status
  rw [h]

/-- Witness for `get_task_status_unknown`: id 99 was never recorded in
`stC10`. -/
theorem get_task_status_unknown_witness :
    get_task_status stC10 99 = (TaskStatus.UNKNOWN, stC10) :=
  get_task_status_unknown stC10 99 rfl

/-- Claim C7: `HierarchicalLock::lock(v)` fails with `InvalidHierarchy`
exactly when `v ≤ current_hierarchy` (the thread-local level, 0 when no lock
is held), and on that failure neither the shared lock word nor the
thread-local level changes — the check throws before any state is touched. -/
theorem hierarchical_lock_invalid_hierarchy (st : HLState) (v : Nat) :
    ((HierarchicalLock.lock st v).1 = LockOutcome.invalidHierarchy ↔ v ≤ st.current_hierarchy)
    ∧ (v ≤ st.current_hierarchy → (HierarchicalLock.lock st v).2 = st) := by
  unfold HierarchicalLock.lock
  by_cases h : v ≤ st.current_hierarchy
  · simp [h]
  · rw [if_neg h]
    by_cases h2 : st.lock_word = 0 <;> simp [h2, h]

/-- Witness for `hierarchical_lock_invalid_hierarchy`: scenario D — a thread
holding level 5 calls `lock(3)`; the call fails and the state is unchanged. -/
theorem hierarchical_lock_invalid_hierarchy_witness :
    (HierarchicalLock.lock ⟨0, 5⟩ 3).1 = LockOutcome.invalidHierarchy ∧
    (HierarchicalLock.lock ⟨0, 5⟩ 3).2 = (⟨0, 5⟩ : HLState) :=
  ⟨(hierarchical_lock_invalid_hierarchy ⟨0, 5⟩ 3).1.mpr (by decide),
   (hierarchical_lock_invalid_hierarchy ⟨0, 5⟩ 3).2 (by decide)⟩

/-- Claim C8, amended: `concurrency::LockFreeQueue::dequeue` returns the
empty result exactly on the empty queue and the first real node's item
otherwise; the `lockfree::LockFreeQueue::dequeue` variant cited by the same
claim returns the first item on a non-empty queue but throws `Queue is
empty` on an empty one instead of returning an empty result. -/
theorem dequeue_empty_behavior (α : Type) (q : List α) :
    (concurrency.LockFreeQueue.dequeue q = none ↔ q = [])
    ∧ (∀ x rest, q = x :: rest → concurrency.LockFreeQueue.dequeue q = some (x, rest))
    ∧ (q = [] → lockfree.LockFreeQueue.dequeue q = Except.error lockfree.QueueError.queueEmpty)
    ∧ (∀ x rest, q = x :: rest → lockfree.LockFreeQueue.dequeue q = Except.ok (x, rest)) := by
  cases q with
  | nil =>
    refine ⟨?_, ?_, ?_, ?_⟩
    · simp [concurrency.LockFreeQueue.dequeue]
    · intro x rest h
      exact List.noConfusion h
    · intro _
      rfl
    · intro x rest h
      exact List.noConfusion h
  | cons a l =>
    refine ⟨?_, ?_, ?_, ?_⟩
    · simp [concurrency.LockFreeQueue.dequeue]
    · intro x rest h
      injection h with h1 h2
      subst h1
      subst h2
      rfl
    · intro h
      exact List.noConfusion h
    · intro x rest h
      injection h with h1 h2
      subst h1
      subst h2
      rfl

/-- Witness for `dequeue_empty_behavior` on the empty queue and on `[3]`. -/
theorem dequeue_empty_behavior_witness :
    concurrency.LockFreeQueue.dequeue ([] : List Nat) = none ∧
    concurrency.LockFreeQueue.dequeue [3] = some (3, ([] : List Nat)) ∧
    lockfree.LockFreeQueue.dequeue [3] = Except.ok (3, ([] : List Nat)) :=
  ⟨(dequeue_empty_behavior Nat []).1.mpr rfl,
   (dequeue_empty_behavior Nat [3]).2.1 3 [] rfl,
   (dequeue_empty_behavior Nat [3]).2.2.2 3 [] rfl⟩

/-- Counterexample to claim C8 as stated: on the empty queue the
`lockfree::LockFreeQueue::dequeue` implementation cited by the claim does not
return an empty result — it throws `Queue is empty`. -/
theorem lockfree_dequeue_throws_on_empty :
    lockfree.LockFreeQueue.dequeue ([] : List Nat) =
      Except.error lockfree.QueueError.queueEmpty := rfl

/-- Claim C9: the worker drain loop pops and executes every queued task in
order regardless of earlier failures — a task whose execution throws is
handed to `handle_core_exception` (recorded Failed and reported, per the
spec's model of that missing body) and the loop continues with every
subsequent sibling task. -/
theorem worker_drain_isolates_failures (q : List WTask) (failed : List Nat) :
    (worker_drain q failed).1 = q.map (fun t => t.id)
    ∧ (worker_drain q failed).2
        = failed ++ (q.filter (fun t => t.outcome == ExecOutcome.failure)).map (fun t => t.id) := by
  induction q generalizing failed with
  | nil => simp [worker_drain]
  | cons t rest ih =>
    rcases ho : t.outcome
    · simp [worker_drain, ho, ih, List.filter_cons, handle_core_exception]
    · simp [worker_drain, ho, ih, List.filter_cons, handle_core_exception]

/-! Properties of `MultiCoreEngine::redistribute_tasks` (claim C2). -/

theorem count_clear_collect (cs : List MCECore) (x : MTask) :
    (totalQueue cs).count x
      = (totalQueue (MCE.clear_failed cs)).count x + (MCE.collect_failed cs).count x := by
  induction cs with
  | nil => simp [totalQueue, MCE.clear_failed, MCE.collect_failed]
  | cons c cs ih =>
    rcases hr : c.running <;>
      simp [totalQueue, MCE.clear_failed, MCE.collect_failed, hr, List.count_append, ih] <;>
      omega

theorem count_submit (cs : List MCECore) (i : Nat) (t x : MTask) (hi : i < cs.length) :
    (totalQueue (MCE.submit_task cs i t)).count x
      = (totalQueue cs).count x + (if t = x then 1 else 0) := by
  induction cs generalizing i with
  | nil => simp at hi
  | cons c cs ih =>
    cases i with
    | zero =>
      by_cases htx : t = x <;>
        simp [MCE.submit_task, totalQueue, List.count_append, List.count_cons, htx] <;>
        omega
    | succ n =>
      have hn : n < cs.length := Nat.lt_of_succ_lt_succ hi
      simp [MCE.submit_task, totalQueue, List.count_append, ih n hn]
      omega

theorem submit_running_map (cs : List MCECore) (i : Nat) (t : MTask) :
    (MCE.submit_task cs i t).map (fun c => c.running) = cs.map (fun c => c.running) := by
  induction cs generalizing i with
  | nil => rfl
  | cons c cs ih =>
    cases i with
    | zero => simp [MCE.submit_task]
    | succ n => simp [MCE.submit_task, ih n]

theorem clear_running_map (cs : List MCECore) :
    (MCE.clear_failed cs).map (fun c => c.running) = cs.map (fun c => c.running) := by
  induction cs with
  | nil => rfl
  | cons c cs ih => rcases hr : c.running <;> simp [MCE.clear_failed, hr, ih]

theorem hasRunning_iff (cs : List MCECore) :
    (∃ c ∈ cs, c.running = true) ↔ true ∈ cs.map (fun c => c.running) := by
  constructor
  · rintro ⟨c, hc, hr⟩
    exact List.mem_map.mpr ⟨c, hc, hr⟩
  · intro h
    rcases List.mem_map.mp h with ⟨c, hc, hr⟩
    exact ⟨c, hc, hr⟩

theorem mce_fllc_step_isSome (acc : Option (Nat × Nat)) (p : Nat × MCECore)
    (h : acc.isSome ∨ p.2.running = true) : (MCE.fllc_step acc p).isSome := by
  unfold MCE.fllc_step
  by_cases hr : p.2.running
  · rw [if_pos hr]
    rcases acc with _ | ⟨t, m⟩
    · simp
    · by_cases hlt : p.2.queue.length < m <;> simp [hlt]
  · rw [if_neg hr]
    rcases h with h | h
    · exact h
    · exact absurd h hr

theorem mce_fllc_foldl_isSome (l : List (Nat × MCECore)) :
    ∀ acc, (acc.isSome ∨ ∃ p ∈ l, p.2.running = true) →
      (l.foldl MCE.fllc_step acc).isSome := by
  induction l with
  | nil =>
    intro acc h
    rcases h with h | ⟨p, hp, _⟩
    · simpa using h
    · cases hp
  | cons p l ih =>
    intro acc h
    rw [List.foldl_cons]
    apply ih
    rcases h with h | ⟨q, hq, hqr⟩
    · exact Or.inl (mce_fllc_step_isSome acc p (Or.inl h))
    · rcases List.mem_cons.mp hq with hq | hq
      · subst hq
        exact Or.inl (mce_fllc_step_isSome acc q (Or.inr hqr))
      · exact Or.inr ⟨q, hq, hqr⟩

theorem mce_fllc_step_fst (acc : Option (Nat × Nat)) (p : Nat × MCECore) (c load : Nat)
    (h : MCE.fllc_step acc p = some (c, load)) : acc = some (c, load) ∨ c = p.1 := by
  rcases p with ⟨i, pc⟩
  rcases hr : pc.running
  · simp [MCE.fllc_step, hr] at h
    exact Or.inl h
  · rcases acc with _ | ⟨t, m⟩
    · simp [MCE.fllc_step, hr] at h
      exact Or.inr h.1.symm
    · by_cases hlt : pc.queue.length < m
      · simp [MCE.fllc_step, hr, hlt] at h
        exact Or.inr h.1.symm
      · simp [MCE.fllc_step, hr, hlt] at h
        exact Or.inl (by simp [h.1, h.2])

theorem mce_fllc_foldl_fst (l : List (Nat × MCECore)) :
    ∀ acc c load, l.foldl MCE.fllc_step acc = some (c, load) →
      acc = some (c, load) ∨ ∃ p ∈ l, p.1 = c := by
  induction l with
  | nil =>
    intro acc c load h
    simp only [List.foldl_nil] at h
    exact Or.inl h
  | cons p l ih =>
    intro acc c load h
    rw [List.foldl_cons] at h
    rcases ih _ c load h with h1 | h1
    · rcases mce_fllc_step_fst acc p c load h1 with h2 | h2
      · exact Or.inl h2
      · exact Or.inr ⟨p, List.mem_cons_self p l, h2.symm⟩
    · rcases h1 with ⟨q, hq, hqc⟩
      exact Or.inr ⟨q, List.mem_cons_of_mem p hq, hqc⟩

theorem mem_enumFrom_bounds {α : Type} (l : List α) :
    ∀ (n : Nat) (p : Nat × α), p ∈ List.enumFrom n l → n ≤ p.1 ∧ p.1 < n + l.length := by
  induction l with
  | nil =>
    intro n p hp
    simp [List.enumFrom] at hp
  | cons a l ih =>
    intro n p hp
    rcases List.mem_cons.mp hp with hp | hp
    · subst hp
      simp
    · have := ih (n + 1) p hp
      simp only [List.length_cons]
      omega

theorem exists_mem_enumFrom {α : Type} (l : List α) :
    ∀ (n : Nat) (a : α), a ∈ l → ∃ i, (i, a) ∈ List.enumFrom n l := by
  induction l with
  | nil =>
    intro n a ha
    cases ha
  | cons b l ih =>
    intro n a ha
    rcases List.mem_cons.mp ha with ha | ha
    · subst ha
      exact ⟨n, List.mem_cons_self _ _⟩
    · rcases ih (n + 1) a ha with ⟨i, hi⟩
      exact ⟨i, List.mem_cons_of_mem _ hi⟩

theorem mce_find_isSome (cs : List MCECore) (h : ∃ c ∈ cs, c.running = true) :
    (MCE.find_least_loaded_core cs).isSome := by
  obtain ⟨c, hc, hr⟩ := h
  obtain ⟨i, hi⟩ := exists_mem_enumFrom cs 0 c hc
  unfold MCE.find_least_loaded_core
  have hfold : ((cs.enum).foldl MCE.fllc_step none).isSome :=
    mce_fllc_foldl_isSome cs.enum none (Or.inr ⟨(i, c), hi, hr⟩)
  rcases hf : (cs.enum).foldl MCE.fllc_step none with _ | p
  · rw [hf] at hfold
    cases hfold
  · rfl

theorem mce_find_lt_length (cs : List MCECore) (i : Nat)
    (h : MCE.find_least_loaded_core cs = some i) : i < cs.length := by
  unfold MCE.find_least_loaded_core at h
  rcases hfold : (cs.enum).foldl MCE.fllc_step none with _ | ⟨c, load⟩
  · rw [hfold] at h
    cases h
  · rw [hfold] at h
    have hc : c = i := by simpa using h
    rcases mce_fllc_foldl_fst cs.enum none c load hfold with h1 | ⟨p, hp, hpc⟩
    · cases h1
    · have hb := mem_enumFrom_bounds cs 0 p hp
      have hlen : p.1 < cs.length := by
        have := hb.2
        simpa using this
      omega

theorem count_redistribute_push (cs : List MCECore) (t x : MTask)
    (h : ∃ c ∈ cs, c.running = true) :
    (totalQueue (MCE.redistribute_push cs t)).count x
      = (totalQueue cs).count x + (if t = x then 1 else 0) := by
  unfold MCE.redistribute_push
  rcases hf : MCE.find_least_loaded_core cs with _ | i
  · have hs := mce_find_isSome cs h
    rw [hf] at hs
    cases hs
  · exact count_submit cs i t x (mce_find_lt_length cs i hf)

theorem push_running_map (cs : List MCECore) (t : MTask) :
    (MCE.redistribute_push cs t).map (fun c => c.running) = cs.map (fun c => c.running) := by
  unfold MCE.redistribute_push
  rcases hf : MCE.find_least_loaded_core cs with _ | i
  · rfl
  · exact submit_running_map cs i t

theorem count_redistribute_foldl (ts : List MTask) :
    ∀ (cs : List MCECore) (x : MTask), (∃ c ∈ cs, c.running = true) →
      (totalQueue (ts.foldl MCE.redistribute_push cs)).count x
        = (totalQueue cs).count x + ts.count x := by
  induction ts with
  | nil =>
    intro cs x h
    simp
  | cons t ts ih =>
    intro cs x h
    rw [List.foldl_cons]
    have h2 : ∃ c ∈ MCE.redistribute_push cs t, c.running = true := by
      rw [hasRunning_iff, push_running_map cs t, ← hasRunning_iff]
      exact h
    rw [ih (MCE.redistribute_push cs t) x h2, count_redistribute_push cs t x h,
      List.count_cons]
    by_cases htx : t = x <;> simp [htx, beq_iff_eq] <;> omega

/-- Claim C2, amended: a redistribution step of
`MultiCoreEngine::redistribute_tasks` neither duplicates nor drops a task
provided at least one core has `running == true`: the multiset of queued
tasks across the fleet is preserved (every drained task lands on exactly one
running core).  When no core is running, the drain still empties the
non-running cores' queues but every drained task is silently dropped (see the
counterexample). -/
theorem redistribute_tasks_preserves_tasks (cs : List MCECore) (x : MTask)
    (h : ∃ c ∈ cs, c.running = true) :
    (totalQueue (MCE.redistribute_tasks cs)).count x = (totalQueue cs).count x := by
  unfold MCE.redistribute_tasks
  have hclear : ∃ c ∈ MCE.clear_failed cs, c.running = true := by
    rw [hasRunning_iff, clear_running_map, ← hasRunning_iff]
    exact h
  rw [count_redistribute_foldl (MCE.collect_failed cs) (MCE.clear_failed cs) x hclear]
  rw [count_clear_collect cs x]

/-- Witness for `redistribute_tasks_preserves_tasks`: with a running idle
core present, the task drained from the stopped core is preserved. -/
theorem redistribute_tasks_preserves_tasks_witness :
    (totalQueue (MCE.redistribute_tasks fleetC2w)).count ⟨7⟩
      = (totalQueue fleetC2w).count ⟨7⟩ :=
  redistribute_tasks_preserves_tasks fleetC2w ⟨7⟩ ⟨⟨true, []⟩, List.Mem.head _, rfl⟩

/-- Counterexample to claim C2 as stated: on `fleetC2cex` (one stopped core
holding task 0, no running core) `MultiCoreEngine::redistribute_tasks` drains
the queue and then finds no target (the `size_t(-1)` sentinel), so the task
is present on no core afterwards — it is silently dropped. -/
theorem redistribute_tasks_drops_counterexample :
    (totalQueue (MCE.redistribute_tasks fleetC2cex)).count ⟨0⟩ = 0 ∧
    (totalQueue fleetC2cex).count ⟨0⟩ = 1 := by
  constructor <;> rfl

/-! Divergence of `LoadBalancer::handle_core_failure` (claims C3, C4) and the
self-deadlock of `LoadBalancer::rebalance_load` (claim C5). -/

theorem mark_core_unhealthy_held (fuel : Nat) (held : Held) (st : LBState) (c : Nat)
    (h : held.metrics = true) : mark_core_unhealthy fuel held st c = none := by
  cases fuel with
  | zero => rfl
  | succ n => simp [mark_core_unhealthy, h]

theorem handle_core_failure_in_table (fuel : Nat) (st : LBState) (c : Nat)
    (h : (mfind st.core_metrics c).isSome) :
    handle_core_failure fuel ⟨false, false⟩ st c = none := by
  match fuel with
  | 0 => rfl
  | 1 => rfl
  | n + 2 =>
    obtain ⟨cm, hcm⟩ : ∃ cm, mfind st.core_metrics c = some cm := by
      rcases hm : mfind st.core_metrics c with _ | cm
      · rw [hm] at h
        cases h
      · exact ⟨cm, rfl⟩
    have hmark : mark_core_unhealthy (n + 1) ⟨false, false⟩ st c
        = handle_core_failure n ⟨true, false⟩
            { st with core_metrics := minsert st.core_metrics c { cm with is_healthy := false } }
            c := by
      simp [mark_core_unhealthy, hcm]
    have hinner : handle_core_failure n ⟨true, false⟩
        { st with core_metrics := minsert st.core_metrics c { cm with is_healthy := false } }
        c = none := by
      cases n with
      | zero => rfl
      | succ k =>
        have hm2 := mark_core_unhealthy_held k ⟨true, false⟩
          { st with core_metrics := minsert st.core_metrics c { cm with is_healthy := false } }
          c rfl
        simp [handle_core_failure, hm2]
    simp [handle_core_failure, hmark, hinner]

/-- Claim C3 evaluated on the code at the failing input `stC3`: the very
first invocation of `handle_core_failure(2)` never returns, for any amount of
fuel — `handle_core_failure` calls `mark_core_unhealthy`, which finds core 2
in the metrics table and, still inside its `metrics_mutex_` `lock_guard`,
calls `handle_core_failure` again; the inner `mark_core_unhealthy` then
re-locks the already-held `metrics_mutex_` (and without the mutex the mutual
recursion is infinite).  No task is ever migrated, and no per-core
single-flight marker exists anywhere in the code, so a second back-to-back
invocation cannot make the per-task migration count one. -/
theorem handle_core_failure_single_call_diverges :
    ∀ fuel, handle_core_failure fuel ⟨false, false⟩ stC3 2 = none :=
  fun fuel => handle_core_failure_in_table fuel stC3 2 rfl

/-- Claim C4 evaluated on the code at scenario B (`stB`): with core 3 in the
metrics table (marked unhealthy, five tasks assigned) and healthy core 1
available, `handle_core_failure(3)` never returns for any fuel — instead of
terminating with the five tasks reassigned, it re-enters
`mark_core_unhealthy`, which re-locks the held `metrics_mutex_` inside an
unbounded mutual recursion.  `redistribute_tasks` is never reached. -/
theorem handle_core_failure_scenarioB_diverges :
    ∀ fuel, handle_core_failure fuel ⟨false, false⟩ stB 3 = none :=
  fun fuel => handle_core_failure_in_table fuel stB 3 rfl

/-- Claim C5 evaluated on the code at scenario A (`stA`, cores
{0: cpu 0.9, 1: cpu 0.2, 2: cpu 0.3}, one task on core 0):
`rebalance_load()` correctly classifies exactly core 0 as overloaded, but —
holding `metrics_mutex_` for its whole body — it calls
`redistribute_tasks(0)`, whose per-task `find_least_loaded_core()` re-locks
`metrics_mutex_` on the same thread.  The call deadlocks and core 0's task is
never moved to core 1. -/
theorem rebalance_load_scenarioA_deadlock :
    rebalance_load ⟨false, false⟩ stA = none := by
  norm_num [rebalance_load, redistribute_tasks, redistribute_step, isOverloaded, stA,
    healthyCpu, taskOn, List.filter_cons, Bool.or_eq_true, decide_eq_true_eq]

end CloudFly
